import Mathlib

/-
Verification of the HEIC-to-PNG conversion orchestrator (src/main.py).

The embedding models:
  * pathlib suffix/stem semantics on plain file names (`pySuffix`, `pyStem`),
  * the sips subprocess backend `_convert_with_sips` as a function of the
    subprocess outcome (`convert_with_sips`),
  * the Pillow fallback backend `_convert_with_pillow` as a function of the
    import/conversion outcomes of its steps (`convert_with_pillow`),
  * the enumeration `iter_heic_files` over a directory listing,
  * the orchestration `convert_heic_to_png` as validation followed by a
    sequential per-file loop, with the output directory contents modelled as
    an association list from file name to content (a written PNG records the
    name of the source file it was converted from).
-/

set_option autoImplicit false

namespace HeicToPng

/-- Index of the last occurrence of a character in a list of characters. -/
def lastIdxOf (c : Char) : List Char → Option Nat
  | [] => none
  | a :: rest =>
    match lastIdxOf c rest with
    | some i => some (i + 1)
    | none => if a = c then some (0 : Nat) else none

/-- Python `pathlib.PurePath.suffix` on a plain file name: the part of the
name from its last dot onward, provided that dot is neither the first nor the
last character; otherwise the empty string. -/
def pySuffix (name : String) : String :=
  let cs := name.toList
  match lastIdxOf ('.') cs with
  | some i => if 0 < i ∧ i + 1 < cs.length then String.mk (cs.drop i) else ""
  | none => ""

/-- Python `pathlib.PurePath.stem` on a plain file name: the name with its
suffix (as in `pySuffix`) removed. -/
def pyStem (name : String) : String :=
  let cs := name.toList
  match lastIdxOf ('.') cs with
  | some i => if 0 < i ∧ i + 1 < cs.length then String.mk (cs.take i) else name
  | none => name

/-- Python `str.strip()`: remove leading and trailing whitespace. -/
def pyStrip (s : String) : String :=
  String.mk (((s.toList.dropWhile Char.isWhitespace).reverse.dropWhile
    Char.isWhitespace).reverse)

/-- `SUBPROCESS_TIMEOUT = 60` from src/main.py. -/
def SUBPROCESS_TIMEOUT : Nat := 60

/-- Outcome of the `subprocess.run` call made by `_convert_with_sips`:
either the process completed with a return code and captured output, or it
exceeded the timeout, or the invocation raised some other exception. -/
inductive SipsOutcome where
  | completed (returncode : Int) (stdout stderr : String)
  | timeout
  | exn (msg : String)
deriving DecidableEq

/-- `_convert_with_sips` (src/main.py lines 38-53) as a function of the
subprocess outcome. Returns `(ok, message)`. -/
def convert_with_sips (outcome : SipsOutcome) : Bool × String :=
  match outcome with
  | SipsOutcome.completed rc out err =>
    if rc = 0 then (true, "")
    else (false, if pyStrip err = "" then pyStrip out else pyStrip err)
  | SipsOutcome.timeout =>
    (false, "Conversion timed out after " ++ toString SUBPROCESS_TIMEOUT ++ " seconds")
  | SipsOutcome.exn msg => (false, msg)

/-- Outcome of one step of the Pillow fallback: it either succeeds or raises
an exception rendered as a message. -/
inductive StepOutcome where
  | ok
  | fails (msg : String)
deriving DecidableEq

/-- Environment of one `_convert_with_pillow` call (src/main.py lines 56-92):
the outcome of `from PIL import Image`, of `import pillow_heif` plus
`register_heif_opener()`, of the whole pyheif read/decode/save block, and of
the final `Image.open`/`save` on the pillow-heif path. -/
structure PillowWorld where
  pilImport : StepOutcome
  pillowHeifImport : StepOutcome
  pyheifAttempt : StepOutcome
  openSave : StepOutcome
deriving DecidableEq

/-- A single-quote character as a string (used to spell the literal error
message of src/main.py lines 83-86). -/
def sq : String := String.mk [Char.ofNat 39]

/-- The message built at src/main.py lines 83-86 when neither HEIC codec
path worked: `Pillow HEIC support not available. Install 'pillow-heif' or
'pyheif'. Details: {e2}`. -/
def pillowInstallMsg (detail : String) : String :=
  "Pillow HEIC support not available. Install " ++ sq ++ "pillow-heif" ++ sq ++
    " or " ++ sq ++ "pyheif" ++ sq ++ ". Details: " ++ detail

/-- `_convert_with_pillow` as a function of its environment. Mirrors the
nested try/except structure: a failing `PIL` import is caught by the outer
handler; a failing `pillow_heif` import falls through to the pyheif block,
whose failure (import or conversion) produces `pillowInstallMsg`; an
exception in the final open-and-save is caught by the outer handler. -/
def convert_with_pillow (w : PillowWorld) : Bool × String :=
  match w.pilImport with
  | StepOutcome.fails msg => (false, msg)
  | StepOutcome.ok =>
    match w.pillowHeifImport with
    | StepOutcome.ok =>
      match w.openSave with
      | StepOutcome.ok => (true, "")
      | StepOutcome.fails msg => (false, msg)
    | StepOutcome.fails _ =>
      match w.pyheifAttempt with
      | StepOutcome.ok => (true, "")
      | StepOutcome.fails e2 => (false, pillowInstallMsg e2)

/-- One entry of the input directory listing: its file name and whether it
is a regular file (`Path.is_file()`). -/
structure Entry where
  name : String
  isFile : Bool
deriving DecidableEq

/-- The suffix set `{".heic", ".HEIC"}` of `iter_heic_files`. -/
def heicSuffixes : List String := [".heic", ".HEIC"]

/-- `iter_heic_files` (src/main.py lines 95-99): the entries of the listing
that are regular files and whose suffix is in `heicSuffixes`. The listing is
a single directory level, so subdirectories are never entered. -/
def iter_heic_files (entries : List Entry) : List Entry :=
  entries.filter (fun p => p.isFile && heicSuffixes.contains (pySuffix p.name))

/-- The run environment: whether `shutil.which("sips")` found the tool, and
the per-source-file behaviour of each backend. -/
structure Env where
  hasSips : Bool
  sipsOutcome : String → SipsOutcome
  pillowWorld : String → PillowWorld

/-- The backend invocation at src/main.py lines 145-148: sips when
available, otherwise Pillow. -/
def backendResult (env : Env) (srcName : String) : Bool × String :=
  if env.hasSips then convert_with_sips (env.sipsOutcome srcName)
  else convert_with_pillow (env.pillowWorld srcName)

/-- `dst = out_dir / (src.stem + ".png")` (src/main.py line 138), as a file
name within the single output directory. -/
def dstName (srcName : String) : String := pyStem srcName ++ ".png"

/-- State threaded through the conversion loop: the counter `converted`, the
list `errors`, the trace of backend invocations `results` (source name and
whether it succeeded), and the output-directory contents `fs` (file name
mapped to content; a successful conversion writes the source name as
content). -/
structure LoopState where
  converted : Nat
  errors : List (String × String)
  results : List (String × Bool)
  fs : List (String × String)
deriving DecidableEq

/-- `dst.exists()` against the modelled output directory. -/
def dstExists (fs : List (String × String)) (dst : String) : Bool :=
  (List.lookup dst fs).isSome

/-- One iteration of the loop at src/main.py lines 137-155: skip when the
destination exists and overwrite is disabled, otherwise invoke the backend
and record the result. -/
def processFile (env : Env) (overwrite : Bool) (s : LoopState) (srcName : String) :
    LoopState :=
  let dst := dstName srcName
  if dstExists s.fs dst && !overwrite then s
  else
    let r := backendResult env srcName
    if r.1 then
      { converted := s.converted + 1
        errors := s.errors
        results := s.results ++ [(srcName, true)]
        fs := (dst, srcName) :: s.fs }
    else
      { converted := s.converted
        errors := s.errors ++ [(srcName, r.2)]
        results := s.results ++ [(srcName, false)]
        fs := s.fs }

/-- The whole `for src in iter_heic_files(in_dir)` loop. -/
def runLoop (env : Env) (overwrite : Bool) : LoopState → List String → LoopState
  | s, [] => s
  | s, n :: rest => runLoop env overwrite (processFile env overwrite s n) rest

/-- State of the resolved input path: absent, present but not a directory,
or a directory with a listing. -/
inductive InputState where
  | missing
  | notDir
  | dir (entries : List Entry)
deriving DecidableEq

/-- The two exceptions `convert_heic_to_png` can raise (src/main.py lines
124-127). -/
inductive ConvError where
  | fileNotFound (msg : String)
  | notADirectory (msg : String)
deriving DecidableEq

/-- `convert_heic_to_png` (src/main.py lines 102-162): validate the input
directory, then run the loop over the enumerated files. `inName` is the
display form of the resolved input directory, `fs0` the initial contents of
the output directory. The Python function returns `converted`; the model
returns the whole final loop state, of which `converted` is a field. -/
def convert_heic_to_png (env : Env) (input : InputState) (inName : String)
    (fs0 : List (String × String)) (overwrite : Bool) : Except ConvError LoopState :=
  match input with
  | InputState.missing =>
    Except.error (ConvError.fileNotFound ("Input directory not found: " ++ inName))
  | InputState.notDir =>
    Except.error (ConvError.notADirectory ("Input path is not a directory: " ++ inName))
  | InputState.dir entries =>
    Except.ok (runLoop env overwrite
      { converted := 0, errors := [], results := [], fs := fs0 }
      ((iter_heic_files entries).map Entry.name))

/-- A concrete environment: sips is present and every invocation exits 0. -/
def envOk : Env :=
  { hasSips := true
    sipsOutcome := fun _ => SipsOutcome.completed 0 "" ""
    pillowWorld := fun _ =>
      { pilImport := StepOutcome.ok
        pillowHeifImport := StepOutcome.ok
        pyheifAttempt := StepOutcome.ok
        openSave := StepOutcome.ok } }

/-- A concrete environment: sips absent, PIL importable, neither optional
HEIC codec importable. -/
def envNoCodec : Env :=
  { hasSips := false
    sipsOutcome := fun _ => SipsOutcome.timeout
    pillowWorld := fun _ =>
      { pilImport := StepOutcome.ok
        pillowHeifImport := StepOutcome.fails "no pillow_heif"
        pyheifAttempt := StepOutcome.fails "no pyheif"
        openSave := StepOutcome.ok } }

theorem runLoop_nil (env : Env) (ow : Bool) (s : LoopState) : runLoop env ow s [] = s := rfl

theorem runLoop_cons (env : Env) (ow : Bool) (s : LoopState) (n : String)
    (rest : List String) :
    runLoop env ow s (n :: rest) = runLoop env ow (processFile env ow s n) rest := rfl

theorem processFile_skip (env : Env) (s : LoopState) (n : String)
    (h : dstExists s.fs (dstName n) = true) :
    processFile env false s n = s := by
  simp [processFile, h]

theorem dstExists_cons (fs : List (String × String)) (d k v : String)
    (h : dstExists fs k = true) : dstExists ((d, v) :: fs) k = true := by
  cases hk : (k == d) with
  | true => simp [dstExists, List.lookup, hk]
  | false => simpa [dstExists, List.lookup, hk] using h

theorem dstExists_head (fs : List (String × String)) (d v : String) :
    dstExists ((d, v) :: fs) d = true := by
  simp [dstExists, List.lookup]

theorem dstExists_processFile (env : Env) (ow : Bool) (s : LoopState) (n k : String)
    (h : dstExists s.fs k = true) : dstExists (processFile env ow s n).fs k = true := by
  unfold processFile
  by_cases hc : (dstExists s.fs (dstName n) && !ow) = true
  · simp only [hc, if_true]
    exact h
  · simp only [Bool.not_eq_true] at hc
    simp only [hc, Bool.false_eq_true, if_false]
    by_cases hr : (backendResult env n).1 = true
    · simp only [hr, if_true]
      exact dstExists_cons s.fs (dstName n) k n h
    · simp only [Bool.not_eq_true] at hr
      simp only [hr, Bool.false_eq_true, if_false]
      exact h

theorem dstExists_runLoop (env : Env) (ow : Bool) (k : String) :
    ∀ (names : List String) (s : LoopState), dstExists s.fs k = true →
      dstExists (runLoop env ow s names).fs k = true := by
  intro names
  induction names with
  | nil => intro s h; exact h
  | cons n rest ih =>
    intro s h
    exact ih (processFile env ow s n) (dstExists_processFile env ow s n k h)

theorem processFile_measures (env : Env) (ow : Bool) (s : LoopState) (n : String)
    (h1 : s.converted = (s.results.filter (fun r => r.2)).length)
    (h2 : s.errors.length = (s.results.filter (fun r => !r.2)).length)
    (h3 : s.errors.map Prod.fst = (s.results.filter (fun r => !r.2)).map Prod.fst) :
    (processFile env ow s n).converted
        = (((processFile env ow s n).results.filter (fun r => r.2)).length) ∧
    (processFile env ow s n).errors.length
        = (((processFile env ow s n).results.filter (fun r => !r.2)).length) ∧
    (processFile env ow s n).errors.map Prod.fst
        = (((processFile env ow s n).results.filter (fun r => !r.2)).map Prod.fst) := by
  unfold processFile
  by_cases hc : (dstExists s.fs (dstName n) && !ow) = true
  · simp only [hc, if_true]
    exact ⟨h1, h2, h3⟩
  · simp only [Bool.not_eq_true] at hc
    simp only [hc, Bool.false_eq_true, if_false]
    by_cases hr : (backendResult env n).1 = true
    · simp only [hr, if_true, List.filter_append, List.length_append, List.map_append]
      simp [h1, h2, h3]
    · simp only [Bool.not_eq_true] at hr
      simp only [hr, Bool.false_eq_true, if_false, List.filter_append,
        List.length_append, List.map_append]
      simp [h1, h2, h3]

theorem runLoop_measures (env : Env) (ow : Bool) :
    ∀ (names : List String) (s : LoopState),
      s.converted = (s.results.filter (fun r => r.2)).length →
      s.errors.length = (s.results.filter (fun r => !r.2)).length →
      s.errors.map Prod.fst = (s.results.filter (fun r => !r.2)).map Prod.fst →
      (runLoop env ow s names).converted
          = (((runLoop env ow s names).results.filter (fun r => r.2)).length) ∧
      (runLoop env ow s names).errors.length
          = (((runLoop env ow s names).results.filter (fun r => !r.2)).length) ∧
      (runLoop env ow s names).errors.map Prod.fst
          = (((runLoop env ow s names).results.filter (fun r => !r.2)).map Prod.fst) := by
  intro names
  induction names with
  | nil => intro s h1 h2 h3; exact ⟨h1, h2, h3⟩
  | cons n rest ih =>
    intro s h1 h2 h3
    obtain ⟨g1, g2, g3⟩ := processFile_measures env ow s n h1 h2 h3
    exact ih (processFile env ow s n) g1 g2 g3

theorem pair_mem_append_singleton {β : Type} (l : List (String × β)) (a n : String)
    (c b : β) (hne : a ≠ n) : ((n, b) ∈ l ++ [(a, c)]) ↔ (n, b) ∈ l := by
  simp only [List.mem_append, List.mem_singleton, Prod.mk.injEq]
  constructor
  · rintro (hin | ⟨he, _⟩)
    · exact hin
    · exact absurd he.symm hne
  · exact fun hin => Or.inl hin

theorem runLoop_frozen (env : Env) (n : String) :
    ∀ (names : List String) (s : LoopState),
      dstExists s.fs (dstName n) = true →
      ((∀ b, ((n, b) ∈ (runLoop env false s names).results ↔ (n, b) ∈ s.results)) ∧
       (∀ m, ((n, m) ∈ (runLoop env false s names).errors ↔ (n, m) ∈ s.errors))) := by
  intro names
  induction names with
  | nil => intro s h; exact ⟨fun b => Iff.rfl, fun m => Iff.rfl⟩
  | cons a rest ih =>
    intro s h
    by_cases hd : dstExists s.fs (dstName a) = true
    · rw [runLoop_cons, processFile_skip env s a hd]
      exact ih s h
    · simp only [Bool.not_eq_true] at hd
      have hne : a ≠ n := by
        intro he
        rw [he, h] at hd
        exact Bool.true_eq_false.mp hd
      rw [runLoop_cons]
      by_cases hr : (backendResult env a).1 = true
      · have hpf : processFile env false s a =
            { converted := s.converted + 1
              errors := s.errors
              results := s.results ++ [(a, true)]
              fs := (dstName a, a) :: s.fs } := by
          unfold processFile
          simp only [hd, Bool.false_and, Bool.false_eq_true, if_false, hr, if_true]
        rw [hpf]
        have hfs2 : dstExists ((dstName a, a) :: s.fs) (dstName n) = true :=
          dstExists_cons s.fs (dstName a) (dstName n) a h
        obtain ⟨ir, ie⟩ := ih
          { converted := s.converted + 1
            errors := s.errors
            results := s.results ++ [(a, true)]
            fs := (dstName a, a) :: s.fs } hfs2
        refine ⟨fun b => (ir b).trans ?_, fun m => (ie m).trans Iff.rfl⟩
        exact pair_mem_append_singleton s.results a n true b hne
      · simp only [Bool.not_eq_true] at hr
        have hpf : processFile env false s a =
            { converted := s.converted
              errors := s.errors ++ [(a, (backendResult env a).2)]
              results := s.results ++ [(a, false)]
              fs := s.fs } := by
          unfold processFile
          simp only [hd, Bool.false_and, Bool.false_eq_true, if_false, hr, if_false]
        rw [hpf]
        obtain ⟨ir, ie⟩ := ih
          { converted := s.converted
            errors := s.errors ++ [(a, (backendResult env a).2)]
            results := s.results ++ [(a, false)]
            fs := s.fs } h
        constructor
        · intro b
          exact (ir b).trans (pair_mem_append_singleton s.results a n false b hne)
        · intro m
          exact (ie m).trans
            (pair_mem_append_singleton s.errors a n (backendResult env a).2 m hne)

theorem runLoop_post (env : Env) :
    ∀ (names : List String) (s : LoopState) (n : String), n ∈ names →
      dstExists (runLoop env false s names).fs (dstName n) = true ∨
      (backendResult env n).1 = false := by
  intro names
  induction names with
  | nil => intro s n hn; exact absurd hn (List.not_mem_nil n)
  | cons a rest ih =>
    intro s n hn
    rw [runLoop_cons]
    rcases List.mem_cons.mp hn with he | hmem
    · subst he
      by_cases hc : dstExists s.fs (dstName n) = true
      · have hps : processFile env false s n = s := processFile_skip env s n hc
        rw [hps]
        exact Or.inl (dstExists_runLoop env false (dstName n) rest s hc)
      · by_cases hr : (backendResult env n).1 = true
        · have hpf : dstExists (processFile env false s n).fs (dstName n) = true := by
            unfold processFile
            simp only [Bool.not_eq_true] at hc
            simp only [hc, Bool.false_and, Bool.false_eq_true, if_false, hr, if_true]
            exact dstExists_head s.fs (dstName n) n
          exact Or.inl (dstExists_runLoop env false (dstName n) rest _ hpf)
        · simp only [Bool.not_eq_true] at hr
          exact Or.inr hr
    · exact ih (processFile env false s a) n hmem

theorem runLoop_stuck (env : Env) :
    ∀ (names : List String) (s : LoopState),
      (∀ n ∈ names, dstExists s.fs (dstName n) = true ∨ (backendResult env n).1 = false) →
      (runLoop env false s names).converted = s.converted := by
  intro names
  induction names with
  | nil => intro s _; rfl
  | cons a rest ih =>
    intro s hspec
    rw [runLoop_cons]
    rcases hspec a (List.mem_cons_self a rest) with hd | hr
    · rw [processFile_skip env s a hd]
      exact ih s (fun n hn => hspec n (List.mem_cons_of_mem a hn))
    · by_cases hc : dstExists s.fs (dstName a) = true
      · rw [processFile_skip env s a hc]
        exact ih s (fun n hn => hspec n (List.mem_cons_of_mem a hn))
      · have hpf : processFile env false s a =
            { converted := s.converted
              errors := s.errors ++ [(a, (backendResult env a).2)]
              results := s.results ++ [(a, false)]
              fs := s.fs } := by
          unfold processFile
          simp only [Bool.not_eq_true] at hc
          simp only [hc, Bool.false_and, Bool.false_eq_true, if_false, hr, if_false]
        rw [hpf]
        exact ih _ (fun n hn => hspec n (List.mem_cons_of_mem a hn))

theorem runLoop_results_names (env : Env) (ow : Bool) :
    ∀ (names : List String) (s : LoopState) (p : String × Bool),
      p ∈ (runLoop env ow s names).results → p ∈ s.results ∨ p.1 ∈ names := by
  intro names
  induction names with
  | nil => intro s p hp; exact Or.inl hp
  | cons a rest ih =>
    intro s p hp
    rw [runLoop_cons] at hp
    rcases ih (processFile env ow s a) p hp with hin | hmem
    · unfold processFile at hin
      by_cases hc : (dstExists s.fs (dstName a) && !ow) = true
      · simp only [hc, if_true] at hin
        exact Or.inl hin
      · simp only [Bool.not_eq_true] at hc
        simp only [hc, Bool.false_eq_true, if_false] at hin
        by_cases hr : (backendResult env a).1 = true
        · simp only [hr, if_true, List.mem_append, List.mem_singleton] at hin
          rcases hin with hin | he
          · exact Or.inl hin
          · exact Or.inr (by rw [he]; exact List.mem_cons_self a rest)
        · simp only [Bool.not_eq_true] at hr
          simp only [hr, Bool.false_eq_true, if_false, List.mem_append,
            List.mem_singleton] at hin
          rcases hin with hin | he
          · exact Or.inl hin
          · exact Or.inr (by rw [he]; exact List.mem_cons_self a rest)
    · exact Or.inr (List.mem_cons_of_mem a hmem)

theorem mem_iter_heic_files (entries : List Entry) (e : Entry) :
    e ∈ iter_heic_files entries ↔
      e ∈ entries ∧ e.isFile = true ∧
        (pySuffix e.name = ".heic" ∨ pySuffix e.name = ".HEIC") := by
  constructor
  · intro h
    obtain ⟨hmem, hcond⟩ := List.mem_filter.mp h
    simp only [Bool.and_eq_true] at hcond
    have hs : pySuffix e.name ∈ heicSuffixes := List.elem_iff.mp hcond.2
    simp only [heicSuffixes, List.mem_cons, List.mem_singleton, List.mem_nil_iff,
      or_false] at hs
    exact ⟨hmem, hcond.1, hs⟩
  · rintro ⟨hmem, hf, hs⟩
    refine List.mem_filter.mpr ⟨hmem, ?_⟩
    simp only [Bool.and_eq_true]
    refine ⟨hf, List.elem_iff.mpr ?_⟩
    simp only [heicSuffixes, List.mem_cons, List.mem_singleton, List.mem_nil_iff,
      or_false]
    exact hs

/-- C1: in every run of `convert_heic_to_png`, the converted count equals the
number of backend invocations that reported success, the error list length
(and its file names) match the invocations that reported failure, and the
only raised failures are the input-directory validation errors. -/
theorem C1_run_summary_invariant (env : Env) (input : InputState) (inName : String)
    (fs0 : List (String × String)) (overwrite : Bool) :
    (∀ s, convert_heic_to_png env input inName fs0 overwrite = Except.ok s →
      s.converted = ((s.results.filter (fun r => r.2)).length) ∧
      s.errors.length = ((s.results.filter (fun r => !r.2)).length) ∧
      s.errors.map Prod.fst = ((s.results.filter (fun r => !r.2)).map Prod.fst)) ∧
    (∀ e, convert_heic_to_png env input inName fs0 overwrite = Except.error e →
      input = InputState.missing ∨ input = InputState.notDir) := by
  constructor
  · intro s hs
    cases input with
    | missing => exact absurd hs (by simp [convert_heic_to_png])
    | notDir => exact absurd hs (by simp [convert_heic_to_png])
    | dir entries =>
      simp only [convert_heic_to_png, Except.ok.injEq] at hs
      subst hs
      exact runLoop_measures env overwrite ((iter_heic_files entries).map Entry.name)
        { converted := 0, errors := [], results := [], fs := fs0 } rfl rfl rfl
  · intro e he
    cases input with
    | missing => exact Or.inl rfl
    | notDir => exact Or.inr rfl
    | dir entries => exact absurd he (by simp [convert_heic_to_png])

/-- Witness for C1 at a concrete one-file run that succeeds. -/
theorem C1_witness :
    (LoopState.mk 1 [] [(("a.heic" : String), true)] [(("a.png" : String), "a.heic")]).converted
      = (((LoopState.mk 1 [] [(("a.heic" : String), true)]
          [(("a.png" : String), "a.heic")]).results.filter (fun r => r.2)).length) :=
  ((C1_run_summary_invariant envOk (InputState.dir [Entry.mk ("a.heic") true]) ("in")
      [] false).1
    (LoopState.mk 1 [] [("a.heic", true)] [("a.png", "a.heic")]) rfl).1

/-- C2: with overwrite disabled, an enumerated file whose destination already
exists is skipped entirely: no backend invocation is recorded for it, it is
not converted, and it contributes no error. -/
theorem C2_skip_entirely (env : Env) (entries : List Entry) (inName : String)
    (fs0 : List (String × String)) (e : Entry) (s : LoopState)
    (henum : e ∈ iter_heic_files entries)
    (hex : dstExists fs0 (dstName e.name) = true)
    (hrun : convert_heic_to_png env (InputState.dir entries) inName fs0 false
      = Except.ok s) :
    (∀ b, (e.name, b) ∉ s.results) ∧ (∀ m, (e.name, m) ∉ s.errors) := by
  simp only [convert_heic_to_png, Except.ok.injEq] at hrun
  subst hrun
  obtain ⟨ir, ie⟩ := runLoop_frozen env e.name ((iter_heic_files entries).map Entry.name)
    { converted := 0, errors := [], results := [], fs := fs0 } hex
  constructor
  · intro b hb
    have hin := (ir b).mp hb
    exact absurd hin (List.not_mem_nil (e.name, b))
  · intro m hm
    have hin := (ie m).mp hm
    exact absurd hin (List.not_mem_nil (e.name, m))

/-- Witness for C2: a run over one file whose destination pre-exists. -/
theorem C2_witness :
    (∀ b, (("a.heic" : String), b) ∉
        (LoopState.mk 0 [] [] [(("a.png" : String), "x")]).results) ∧
    (∀ m, (("a.heic" : String), m) ∉
        (LoopState.mk 0 [] [] [(("a.png" : String), "x")]).errors) :=
  C2_skip_entirely envOk [Entry.mk ("a.heic") true] ("in") [("a.png", "x")]
    (Entry.mk ("a.heic") true) (LoopState.mk 0 [] [] [("a.png", "x")])
    (by decide) (by decide) rfl

/-- C3: `iter_heic_files` enumerates exactly the regular files of the listing
whose suffix is the exact-case `.heic` or `.HEIC`; in particular a file named
`photo.Heic` is never enumerated, and only entries of the single-level
listing appear. -/
theorem C3_enumeration_exact (entries : List Entry) (e : Entry) :
    (e ∈ iter_heic_files entries ↔
      e ∈ entries ∧ e.isFile = true ∧
        (pySuffix e.name = ".heic" ∨ pySuffix e.name = ".HEIC")) ∧
    Entry.mk ("photo.Heic") true ∉ iter_heic_files entries := by
  refine ⟨mem_iter_heic_files entries e, ?_⟩
  intro h
  have hs := ((mem_iter_heic_files entries (Entry.mk ("photo.Heic") true)).mp h).2.2
  rcases hs with h1 | h1
  · exact absurd h1 (by decide)
  · exact absurd h1 (by decide)

/-- Witness for C3: a `.heic` file in the listing is enumerated. -/
theorem C3_witness :
    Entry.mk ("a.heic") true ∈ iter_heic_files [Entry.mk ("a.heic") true] :=
  (C3_enumeration_exact [Entry.mk ("a.heic") true] (Entry.mk ("a.heic") true)).1.mpr
    ⟨by decide, rfl, Or.inl (by decide)⟩

/-- C4: `convert_heic_to_png` fails with `fileNotFound` exactly when the
input path is missing, with `notADirectory` exactly when it exists but is
not a directory, and any such failure is independent of the backend
environment, the output directory contents and the overwrite flag (so it
happens before any conversion is attempted). -/
theorem C4_validation_errors (env : Env) (input : InputState) (inName : String)
    (fs0 : List (String × String)) (overwrite : Bool) :
    (convert_heic_to_png env input inName fs0 overwrite =
        Except.error (ConvError.fileNotFound ("Input directory not found: " ++ inName)) ↔
      input = InputState.missing) ∧
    (convert_heic_to_png env input inName fs0 overwrite =
        Except.error (ConvError.notADirectory ("Input path is not a directory: " ++ inName)) ↔
      input = InputState.notDir) ∧
    (∀ e, convert_heic_to_png env input inName fs0 overwrite = Except.error e →
      ∀ (env2 : Env) (fs2 : List (String × String)) (ow2 : Bool),
        convert_heic_to_png env2 input inName fs2 ow2 =
          convert_heic_to_png env input inName fs0 overwrite) := by
  cases input with
  | missing =>
    refine ⟨⟨fun _ => rfl, fun _ => rfl⟩, ⟨fun h => ?_, fun h => ?_⟩, ?_⟩
    · simp [convert_heic_to_png] at h
    · exact InputState.noConfusion h
    · intro e _ env2 fs2 ow2
      rfl
  | notDir =>
    refine ⟨⟨fun h => ?_, fun h => ?_⟩, ⟨fun _ => rfl, fun _ => rfl⟩, ?_⟩
    · simp [convert_heic_to_png] at h
    · exact InputState.noConfusion h
    · intro e _ env2 fs2 ow2
      rfl
  | dir entries =>
    refine ⟨⟨fun h => ?_, fun h => ?_⟩, ⟨fun h => ?_, fun h => ?_⟩, ?_⟩
    · simp [convert_heic_to_png] at h
    · exact InputState.noConfusion h
    · simp [convert_heic_to_png] at h
    · exact InputState.noConfusion h
    · intro e he env2 fs2 ow2
      simp [convert_heic_to_png] at he

/-- Witness for C4 on a missing input directory. -/
theorem C4_witness :
    convert_heic_to_png envOk InputState.missing ("in") [] false =
      Except.error (ConvError.fileNotFound ("Input directory not found: " ++ "in")) :=
  (C4_validation_errors envOk InputState.missing ("in") [] false).1.mpr rfl

/-- C5: the sips backend reports success with an empty message exactly on
exit code zero, failure with the trimmed stderr (falling back to trimmed
stdout when the trimmed stderr is empty) on a non-zero exit code, and a
failure message stating the 60-second timeout duration on timeout. -/
theorem C5_sips_outcomes (rc : Int) (out err : String) :
    convert_with_sips (SipsOutcome.completed rc out err) =
      (if rc = 0 then ((true, "") : Bool × String)
       else (false, if pyStrip err = "" then pyStrip out else pyStrip err)) ∧
    convert_with_sips SipsOutcome.timeout =
      (false, "Conversion timed out after 60 seconds") := by
  constructor
  · rfl
  · rfl

theorem backendResult_nocodec (env : Env) (em1 em2 : String → String)
    (hs : env.hasSips = false)
    (hw1 : ∀ n, (env.pillowWorld n).pilImport = StepOutcome.ok)
    (hw2 : ∀ n, (env.pillowWorld n).pillowHeifImport = StepOutcome.fails (em1 n))
    (hw3 : ∀ n, (env.pillowWorld n).pyheifAttempt = StepOutcome.fails (em2 n)) :
    ∀ n, backendResult env n = (false, pillowInstallMsg (em2 n)) := by
  intro n
  simp [backendResult, convert_with_pillow, hs, hw1 n, hw2 n, hw3 n]

theorem runLoop_nocodec_inv (env : Env) (em2 : String → String)
    (hbe : ∀ n, backendResult env n = (false, pillowInstallMsg (em2 n))) :
    ∀ (names : List String) (s : LoopState) (ow : Bool),
      s.converted = 0 →
      s.errors.map Prod.fst = s.results.map Prod.fst →
      (∀ p ∈ s.errors, p.2 = pillowInstallMsg (em2 p.1)) →
      (runLoop env ow s names).converted = 0 ∧
      (runLoop env ow s names).errors.map Prod.fst
          = (runLoop env ow s names).results.map Prod.fst ∧
      (∀ p ∈ (runLoop env ow s names).errors, p.2 = pillowInstallMsg (em2 p.1)) := by
  intro names
  induction names with
  | nil => intro s ow h1 h2 h3; exact ⟨h1, h2, h3⟩
  | cons a rest ih =>
    intro s ow h1 h2 h3
    rw [runLoop_cons]
    by_cases hc : (dstExists s.fs (dstName a) && !ow) = true
    · have hps : processFile env ow s a = s := by
        unfold processFile
        simp only [hc, if_true]
      rw [hps]
      exact ih s ow h1 h2 h3
    · have hpf : processFile env ow s a =
          { converted := s.converted
            errors := s.errors ++ [(a, (backendResult env a).2)]
            results := s.results ++ [(a, false)]
            fs := s.fs } := by
        unfold processFile
        simp only [Bool.not_eq_true] at hc
        simp only [hc, Bool.false_eq_true, if_false, hbe a]
      rw [hpf]
      apply ih
      · exact h1
      · simp only [List.map_append, h2, List.map_cons, List.map_nil]
      · intro p hp
        rcases List.mem_append.mp hp with hin | hone
        · exact h3 p hin
        · rw [List.mem_singleton] at hone
          rw [hone, hbe a]

/-- C6: when sips is unavailable, PIL imports, and neither optional HEIC
codec imports, every backend invocation fails with the message naming the
two optional packages and the detail of the second attempt, so the ok-result
has converted count 0 and its error list covers exactly the invocations. -/
theorem C6_no_codec_failures (env : Env) (em1 em2 : String → String)
    (entries : List Entry) (inName : String) (fs0 : List (String × String))
    (overwrite : Bool) (s : LoopState)
    (hs : env.hasSips = false)
    (hw1 : ∀ n, (env.pillowWorld n).pilImport = StepOutcome.ok)
    (hw2 : ∀ n, (env.pillowWorld n).pillowHeifImport = StepOutcome.fails (em1 n))
    (hw3 : ∀ n, (env.pillowWorld n).pyheifAttempt = StepOutcome.fails (em2 n))
    (hrun : convert_heic_to_png env (InputState.dir entries) inName fs0 overwrite
      = Except.ok s) :
    s.converted = 0 ∧
    s.errors.map Prod.fst = s.results.map Prod.fst ∧
    (∀ p ∈ s.errors, p.2 = pillowInstallMsg (em2 p.1)) := by
  have hbe := backendResult_nocodec env em1 em2 hs hw1 hw2 hw3
  simp only [convert_heic_to_png, Except.ok.injEq] at hrun
  subst hrun
  exact runLoop_nocodec_inv env em2 hbe ((iter_heic_files entries).map Entry.name)
    { converted := 0, errors := [], results := [], fs := fs0 } overwrite rfl rfl
    (fun p hp => absurd hp (List.not_mem_nil p))

/-- Witness for C6: one file, no sips, no codecs. -/
theorem C6_witness :
    (LoopState.mk 0 [(("a.heic" : String), pillowInstallMsg ("no pyheif"))]
        [(("a.heic" : String), false)] []).converted = 0 ∧
    (LoopState.mk 0 [(("a.heic" : String), pillowInstallMsg ("no pyheif"))]
        [(("a.heic" : String), false)] []).errors.map Prod.fst =
      (LoopState.mk 0 [(("a.heic" : String), pillowInstallMsg ("no pyheif"))]
        [(("a.heic" : String), false)] []).results.map Prod.fst ∧
    (∀ p ∈ (LoopState.mk 0 [(("a.heic" : String), pillowInstallMsg ("no pyheif"))]
        [(("a.heic" : String), false)] []).errors,
      p.2 = pillowInstallMsg ((fun _ => ("no pyheif" : String)) p.1)) :=
  C6_no_codec_failures envNoCodec (fun _ => "no pillow_heif") (fun _ => "no pyheif")
    [Entry.mk ("a.heic") true] ("in") [] false
    (LoopState.mk 0 [("a.heic", pillowInstallMsg ("no pyheif"))] [("a.heic", false)] [])
    rfl (fun _ => rfl) (fun _ => rfl) (fun _ => rfl) rfl

/-- C7: a directory whose files all have non-matching extensions yields the
initial state back: converted count 0 and no backend invocation recorded. -/
theorem C7_no_matching_extensions (env : Env) (entries : List Entry) (inName : String)
    (fs0 : List (String × String)) (overwrite : Bool)
    (h : ∀ e ∈ entries, pySuffix e.name ≠ ".heic" ∧ pySuffix e.name ≠ ".HEIC") :
    convert_heic_to_png env (InputState.dir entries) inName fs0 overwrite =
      Except.ok { converted := 0, errors := [], results := [], fs := fs0 } := by
  have hnil : iter_heic_files entries = [] := by
    apply List.filter_eq_nil_iff.mpr
    intro e he hcond
    simp only [Bool.and_eq_true] at hcond
    have hs2 : pySuffix e.name ∈ heicSuffixes := List.elem_iff.mp hcond.2
    simp only [heicSuffixes, List.mem_cons, List.mem_singleton, List.mem_nil_iff,
      or_false] at hs2
    rcases hs2 with h1 | h1
    · exact (h e he).1 h1
    · exact (h e he).2 h1
  simp only [convert_heic_to_png, hnil, List.map_nil, runLoop_nil]

/-- Witness for C7: a directory containing only `c.jpg`. -/
theorem C7_witness :
    convert_heic_to_png envOk (InputState.dir [Entry.mk ("c.jpg") true]) ("in")
        [] false =
      Except.ok { converted := 0, errors := [], results := [], fs := [] } :=
  C7_no_matching_extensions envOk [Entry.mk ("c.jpg") true] ("in") [] false (by decide)

/-- C8: a second run with overwrite disabled over the same listing, starting
from the output directory the first run produced, converts nothing. -/
theorem C8_second_run_converts_nothing (env : Env) (entries : List Entry)
    (inName : String) (fs0 : List (String × String)) (s1 s2 : LoopState)
    (h1 : convert_heic_to_png env (InputState.dir entries) inName fs0 false
      = Except.ok s1)
    (h2 : convert_heic_to_png env (InputState.dir entries) inName s1.fs false
      = Except.ok s2) :
    s2.converted = 0 := by
  simp only [convert_heic_to_png, Except.ok.injEq] at h1 h2
  subst h1
  subst h2
  exact runLoop_stuck env ((iter_heic_files entries).map Entry.name)
    { converted := 0, errors := [], results := []
      fs := (runLoop env false { converted := 0, errors := [], results := [], fs := fs0 }
        ((iter_heic_files entries).map Entry.name)).fs }
    (fun n hn => runLoop_post env ((iter_heic_files entries).map Entry.name)
      { converted := 0, errors := [], results := [], fs := fs0 } n hn)

/-- Witness for C8: one file converted on the first run, skipped on the
second. -/
theorem C8_witness :
    (LoopState.mk 0 [] [] [(("a.png" : String), "a.heic")]).converted = 0 :=
  C8_second_run_converts_nothing envOk [Entry.mk ("a.heic") true] ("in") []
    (LoopState.mk 1 [] [("a.heic", true)] [("a.png", "a.heic")])
    (LoopState.mk 0 [] [] [("a.png", "a.heic")]) rfl rfl

/-- C9: `a.heic` and `a.HEIC` map to the same destination `a.png`; with
overwrite disabled and the destination initially absent, once the first of
them converts successfully the second is skipped, so exactly one backend
invocation is recorded and the destination holds the conversion of the
first-processed file. -/
theorem C9_case_collision (env : Env) (inName : String) (fs0 : List (String × String))
    (hnone : List.lookup ("a.png") fs0 = none)
    (hok : (backendResult env ("a.heic")).1 = true) :
    dstName ("a.heic") = "a.png" ∧ dstName ("a.HEIC") = "a.png" ∧
    convert_heic_to_png env
        (InputState.dir [Entry.mk ("a.heic") true, Entry.mk ("a.HEIC") true])
        inName fs0 false =
      Except.ok { converted := 1, errors := [], results := [(("a.heic" : String), true)]
                  fs := (("a.png" : String), ("a.heic" : String)) :: fs0 } ∧
    List.lookup ("a.png") ((("a.png" : String), ("a.heic" : String)) :: fs0)
      = some "a.heic" := by
  have hd : dstExists fs0 (dstName ("a.heic")) = false := by
    have he : dstName ("a.heic") = "a.png" := rfl
    rw [dstExists, he, hnone]
    rfl
  have hpf1 : processFile env false
      { converted := 0, errors := [], results := [], fs := fs0 } ("a.heic") =
      { converted := 1, errors := [], results := [(("a.heic" : String), true)]
        fs := (("a.png" : String), ("a.heic" : String)) :: fs0 } := by
    unfold processFile
    simp only [hd, Bool.false_and, Bool.false_eq_true, if_false, hok, if_true]
    rfl
  have hpf2 : processFile env false
      { converted := 1, errors := [], results := [(("a.heic" : String), true)]
        fs := (("a.png" : String), ("a.heic" : String)) :: fs0 } ("a.HEIC") =
      { converted := 1, errors := [], results := [(("a.heic" : String), true)]
        fs := (("a.png" : String), ("a.heic" : String)) :: fs0 } := by
    apply processFile_skip
    have he : dstName ("a.HEIC") = "a.png" := rfl
    rw [he]
    exact dstExists_head fs0 ("a.png") ("a.heic")
  refine ⟨rfl, rfl, ?_, by simp [List.lookup]⟩
  have hnames : (iter_heic_files
      [Entry.mk ("a.heic") true, Entry.mk ("a.HEIC") true]).map Entry.name =
      [("a.heic" : String), "a.HEIC"] := rfl
  simp only [convert_heic_to_png, hnames, runLoop_cons, hpf1, hpf2, runLoop_nil]

/-- Witness for C9 in the always-succeeding environment. -/
theorem C9_witness :
    dstName ("a.heic") = "a.png" ∧ dstName ("a.HEIC") = "a.png" ∧
    convert_heic_to_png envOk
        (InputState.dir [Entry.mk ("a.heic") true, Entry.mk ("a.HEIC") true])
        ("in") [] false =
      Except.ok { converted := 1, errors := [], results := [(("a.heic" : String), true)]
                  fs := (("a.png" : String), ("a.heic" : String)) :: [] } ∧
    List.lookup ("a.png") ((("a.png" : String), ("a.heic" : String)) :: [])
      = some "a.heic" :=
  C9_case_collision envOk ("in") [] rfl rfl

/-- C10: a regular file named exactly `.heic` or `.HEIC` has empty suffix, is
never enumerated, and no backend invocation is ever recorded for it. -/
theorem C10_dotfile_never_converted (entries : List Entry) (env : Env) (inName : String)
    (fs0 : List (String × String)) (overwrite : Bool) (s : LoopState) :
    (Entry.mk (".heic") true ∉ iter_heic_files entries ∧
     Entry.mk (".HEIC") true ∉ iter_heic_files entries) ∧
    (convert_heic_to_png env (InputState.dir entries) inName fs0 overwrite
        = Except.ok s →
      (∀ b, ((".heic" : String), b) ∉ s.results) ∧
      (∀ b, ((".HEIC" : String), b) ∉ s.results)) := by
  constructor
  · constructor
    · intro h
      have hs2 := ((mem_iter_heic_files entries (Entry.mk (".heic") true)).mp h).2.2
      rcases hs2 with h1 | h1
      · exact absurd h1 (by decide)
      · exact absurd h1 (by decide)
    · intro h
      have hs2 := ((mem_iter_heic_files entries (Entry.mk (".HEIC") true)).mp h).2.2
      rcases hs2 with h1 | h1
      · exact absurd h1 (by decide)
      · exact absurd h1 (by decide)
  · intro hrun
    simp only [convert_heic_to_png, Except.ok.injEq] at hrun
    subst hrun
    constructor
    · intro b hb
      rcases runLoop_results_names env overwrite
          ((iter_heic_files entries).map Entry.name)
          { converted := 0, errors := [], results := [], fs := fs0 } (".heic", b) hb with
        hin | hmem
      · exact absurd hin (List.not_mem_nil _)
      · obtain ⟨e, he, hname⟩ := List.mem_map.mp hmem
        have hs2 := ((mem_iter_heic_files entries e).mp he).2.2
        have hname2 : e.name = ".heic" := hname
        rw [hname2] at hs2
        rcases hs2 with h1 | h1
        · exact absurd h1 (by decide)
        · exact absurd h1 (by decide)
    · intro b hb
      rcases runLoop_results_names env overwrite
          ((iter_heic_files entries).map Entry.name)
          { converted := 0, errors := [], results := [], fs := fs0 } (".HEIC", b) hb with
        hin | hmem
      · exact absurd hin (List.not_mem_nil _)
      · obtain ⟨e, he, hname⟩ := List.mem_map.mp hmem
        have hs2 := ((mem_iter_heic_files entries e).mp he).2.2
        have hname2 : e.name = ".HEIC" := hname
        rw [hname2] at hs2
        rcases hs2 with h1 | h1
        · exact absurd h1 (by decide)
        · exact absurd h1 (by decide)

/-- Witness for C10: a listing holding only the dotfile `.heic`. -/
theorem C10_witness :
    (∀ b, ((".heic" : String), b) ∉ (LoopState.mk 0 [] [] []).results) ∧
    (∀ b, ((".HEIC" : String), b) ∉ (LoopState.mk 0 [] [] []).results) :=
  (C10_dotfile_never_converted [Entry.mk (".heic") true] envOk ("in") [] false
    (LoopState.mk 0 [] [] [])).2 rfl

end HeicToPng
